import Mathlib

/-!
Verification of `zk-allowance-soundness` (`src/appallowzk.py`) against its
natural-language specification (`spec.md`).

The whole program is one linear CLI pipeline (`main`), embedded here as a pure
function `runMain` from the parsed arguments (`Args`) and an oracle describing
the behaviour of the remote chain endpoint for this run (`Chain`) to a `RunResult`:
the printed lines in order, the network operations attempted in order, and the
process exit code.

Modelling conventions:
* Fallible remote calls are `Option`/`Except` fields of the `Chain` oracle.
* `web3`-library functionality (`Web3.is_address`, `Web3.to_checksum_address`)
  is not part of the source of this repository; it is modelled from the spec
  (section 4.1), with the keccak hash left as an explicit parameter, since no
  claim depends on concrete hash values.
* Python `float` literal values are represented exactly: a parsed literal is a
  pair `(m, e) : ℤ × ℤ` denoting `m · 10 ^ e`.  This is exact for every value
  the theorems below evaluate on; binary64 rounding itself is not modelled
  (claims that hinge on binary64 rounding error are out of scope).
* Wall-clock time is not modelled: the elapsed-seconds report line is kept as
  a fixed placeholder string and the JSON field is omitted.
-/

/-! ## Characters and hex digits -/

/-- The hexadecimal digit alphabet (both cases), as used by address syntax. -/
def hexDigitChars : List Char :=
  ['f','F','e','E','d','D','c','C','b','B','a','A',
   '9','8','7','6','5','4','3','2','1','0']

/-- `c` is a hexadecimal digit (case-insensitive). -/
def hexDigit (c : Char) : Bool := decide (c ∈ hexDigitChars)

/-- Lowercase a hex digit (identity on everything outside `A`–`F`). -/
def toLowerHex (c : Char) : Char :=
  if c = 'A' then 'a' else if c = 'B' then 'b' else if c = 'C' then 'c'
  else if c = 'D' then 'd' else if c = 'E' then 'e' else if c = 'F' then 'f' else c

/-- Uppercase a hex digit (identity on everything outside `a`–`f`). -/
def toUpperHex (c : Char) : Char :=
  if c = 'a' then 'A' else if c = 'b' then 'B' else if c = 'c' then 'C'
  else if c = 'd' then 'D' else if c = 'e' then 'E' else if c = 'f' then 'F' else c

/-- `'0' ≤ c ≤ '9'`. -/
def isDigitChar (c : Char) : Bool := 48 ≤ c.toNat && c.toNat ≤ 57

/-- Numeric value of a decimal digit character. -/
def digitVal (c : Char) : ℕ := c.toNat - 48

/-- Decimal number denoted by a digit list (most significant first). -/
def natOfDigits (l : List Char) : ℕ := l.foldl (fun a c => 10 * a + digitVal c) 0

/-! ## Address validation and checksumming

Modelled from the spec: `Web3.is_address` / `Web3.to_checksum_address` (used by
`to_checksum_or_die`, src/appallowzk.py lines 26-29) live in the `web3` library,
not in this repository.  Spec section 4.1: an address is syntactically valid iff
it is 40 hex chars with an optional `0x` prefix, case-insensitive; the canonical
form hashes the lowercase hex digits and uppercases each digit whose
corresponding hash nibble is ≥ 8 (EIP-55).  The hash is passed in as the
parameter `keccak`, returning the list of hash nibbles; no claim below depends
on its concrete values. -/

/-- Drop a leading `0x`, if present. -/
def strip0x : List Char → List Char
  | '0' :: 'x' :: r => r
  | l => l

/-- Modelled from the spec: `Web3.is_address` — 40 hex chars, optional `0x`
prefix, case-insensitive. -/
def isAddress (s : String) : Bool :=
  let d := strip0x s.data
  d.length = 40 && d.all hexDigit

/-- Apply the EIP-55 case pattern: uppercase each digit whose corresponding
hash nibble is ≥ 8. -/
def caseByNibbles : List ℕ → List Char → List Char
  | _, [] => []
  | [], c :: cs => c :: caseByNibbles [] cs
  | n :: ns, c :: cs => (if 8 ≤ n then toUpperHex c else c) :: caseByNibbles ns cs

/-- Modelled from the spec: `Web3.to_checksum_address` — lowercase the digits,
hash them, re-case per nibble, and re-attach the `0x` prefix. -/
def to_checksum_address (keccak : List Char → List ℕ) (s : String) : String :=
  let low := (strip0x s.data).map toLowerHex
  String.mk ('0' :: 'x' :: caseByNibbles (keccak low) low)

/-- `to_checksum_or_die` from src/appallowzk.py lines 26-29: reject invalid
addresses with a `ValueError` message, otherwise checksum-normalize. -/
def to_checksum_or_die (keccak : List Char → List ℕ) (addr : String) :
    Except String String :=
  if isAddress addr then .ok (to_checksum_address keccak addr)
  else .error ("Invalid Ethereum address: " ++ addr)

/-! ## Amount formatter (`human_amount`, src/appallowzk.py lines 55-59)

The Python code formats the binary64 quotient `amount_wei / 10 ** decimals`
with `min(decimals, 18)` fractional digits.  Here the quotient is taken exactly
and rendered with round-half-even to the same number of fractional digits: an
exact-precision model of that display conversion (the rendered digits agree
with the source whenever the quotient survives binary64 unharmed; no claim
settled below depends on the rendered digits of large amounts). -/

/-- Round-half-even division `a / b` on naturals (`b > 0` intended). -/
def roundHalfEvenDivNat (a b : ℕ) : ℕ :=
  let f := a / b
  let r := a % b
  if 2 * r < b then f else if b < 2 * r then f + 1
  else if f % 2 = 0 then f else f + 1

/-- Left-pad a numeral string with zeros to width `p`. -/
def padZeros (p : ℕ) (s : String) : String :=
  String.mk (List.replicate (p - s.length) '0' ++ s.data)

/-- Render `amount_wei / 10 ^ d` with `min d 18` fractional digits. -/
def formatFixed (amount_wei d : ℕ) : String :=
  let p := min d 18
  let scaled := roundHalfEvenDivNat amount_wei (10 ^ (d - p))
  toString (scaled / 10 ^ p) ++ "." ++ padZeros p (toString (scaled % 10 ^ p))

/-- `human_amount` from src/appallowzk.py lines 55-59. -/
def human_amount (amount_wei : ℕ) (decimals : ℕ) : String :=
  if decimals ≤ 0 then toString amount_wei
  else formatFixed amount_wei decimals

/-! ## Expected-value parsing (src/appallowzk.py lines 128-138)

`float(args.expected.replace(",", ""))` followed by
`int(round(exp_float * 10 ** decimals))`.  The accepted literal syntax is
modelled after CPython `float()`: optional surrounding whitespace, optional
sign, digits with an optional decimal point, and an optional exponent part.
(`inf`/`nan` spellings and underscore digit separators are not modelled;
`inf`/`nan` in the source fail later inside the same `try` block, at
`round()`, which lands in the identical `except` path.)  A parsed literal is
represented exactly as `(m, e) : ℤ × ℤ` with value `m · 10 ^ e`. -/

/-- Whitespace stripped by Python `float()` (ASCII subset). -/
def isSpaceChar (c : Char) : Bool :=
  c = ' ' || c = '\t' || c = '\n' || c = '\r' || c = '\x0b' || c = '\x0c'

/-- Strip leading and trailing whitespace. -/
def trimChars (l : List Char) : List Char :=
  ((l.dropWhile isSpaceChar).reverse.dropWhile isSpaceChar).reverse

/-- Consume an optional sign; `true` means negative. -/
def parseSign : List Char → Bool × List Char
  | '+' :: r => (false, r)
  | '-' :: r => (true, r)
  | l => (false, l)

/-- Consume `digits [. digits]`: the value is `m / 10 ^ s` for result
`(m, s, rest)`.  At least one digit must be present. -/
def parseMantissa (l : List Char) : Option (ℕ × ℕ × List Char) :=
  let (ip, r1) := l.span isDigitChar
  match r1 with
  | '.' :: r2 =>
    let (fp, r3) := r2.span isDigitChar
    if ip.isEmpty && fp.isEmpty then none
    else some (natOfDigits (ip ++ fp), fp.length, r3)
  | _ => if ip.isEmpty then none else some (natOfDigits ip, 0, r1)

/-- Consume an optional exponent part `e[sign]digits`. -/
def parseExpPart : List Char → Option (ℤ × List Char)
  | [] => some (0, [])
  | c :: r =>
    if c = 'e' || c = 'E' then
      let (neg, r1) := parseSign r
      let (ds, r2) := r1.span isDigitChar
      if ds.isEmpty then none
      else some (if neg then -(natOfDigits ds : ℤ) else (natOfDigits ds : ℤ), r2)
    else some (0, c :: r)

/-- Model of CPython `float()` on the accepted numeric literals: the exact
value of the literal, as `(m, e)` with value `m · 10 ^ e`; `none` on any
input `float()` rejects. -/
def pyFloatLit (s : String) : Option (ℤ × ℤ) := do
  let l := trimChars s.data
  let (neg, l1) := parseSign l
  let (m, sc, l2) ← parseMantissa l1
  let (ex, l3) ← parseExpPart l2
  if l3.isEmpty then
    some ((if neg then -(m : ℤ) else (m : ℤ)), ex - (sc : ℤ))
  else none

/-- `args.expected.replace(",", "")` from src/appallowzk.py line 132. -/
def dropCommas (s : String) : String := String.mk (s.data.filter (fun c => c != ','))

/-- Round-half-even of `m / 10 ^ k` (Python `round` on the scaled value). -/
def roundHalfEvenScaled (m : ℤ) (k : ℕ) : ℤ :=
  let d : ℤ := 10 ^ k
  let f := Int.fdiv m d
  let r := m - f * d
  if 2 * r < d then f else if d < 2 * r then f + 1
  else if f % 2 = 0 then f else f + 1

/-- `int(round(float(s.replace(",", "")) * 10 ** decimals))` from
src/appallowzk.py lines 132-133: `none` when the parse fails. -/
def parseExpectedRaw (s : String) (decimals : ℕ) : Option ℤ :=
  (pyFloatLit (dropCommas s)).map (fun me =>
    let t := me.2 + (decimals : ℤ)
    if 0 ≤ t then me.1 * 10 ^ t.toNat else roundHalfEvenScaled me.1 (-t).toNat)

/-! ## Data model: arguments, chain oracle, reports -/

/-- Parsed command-line arguments (`parse_args`, src/appallowzk.py lines 61-73).
`timeout` only parameterizes the transport and has no observable effect in the
embedding. -/
structure Args where
  rpc : String
  token : String
  owner : String
  spender : String
  block : String
  expected : Option String
  timeout : ℕ
  json : Bool
deriving DecidableEq

/-- Failure modes of the `allowance` contract call, mirroring the exception
classes distinguished by `get_allowance` (src/appallowzk.py lines 47-53). -/
inductive CallFailure where
  | badFunctionCallOutput (msg : String)
  | contractLogicError (msg : String)
  | other (msg : String)
deriving DecidableEq

/-- Oracle for the interactions of one run with the RPC endpoint: whether the
liveness probe succeeds, and the outcome of each read-only contract call.
`chainId` is queried twice by the source (report line and JSON field); the
oracle supplies one per-run outcome for both. -/
structure Chain where
  connected : Bool
  chainId : Option ℕ
  nameRes : Option String
  symbolRes : Option String
  decimalsRes : Option ℕ
  allowanceCall : Except CallFailure ℕ

/-- Token metadata (name, symbol, decimals) after best-effort fetching. -/
structure TokenMeta where
  name : String
  symbol : String
  decimals : ℕ
deriving DecidableEq

/-- `fetch_erc20_meta` from src/appallowzk.py lines 31-45: three independent
calls, each individually wrapped in `try/except` with a documented default. -/
def fetch_erc20_meta (chain : Chain) : TokenMeta :=
  let name := match chain.nameRes with
    | some v => v
    | none => "Unknown"
  let symbol := match chain.symbolRes with
    | some v => v
    | none => "???"
  let decimals := match chain.decimalsRes with
    | some v => v
    | none => 18
  ⟨name, symbol, decimals⟩

/-- `get_allowance` from src/appallowzk.py lines 47-53: wrap the two
contract-level exception classes and all other failures in distinct
`RuntimeError` messages. -/
def get_allowance (chain : Chain) : Except String ℕ :=
  match chain.allowanceCall with
  | .ok v => .ok v
  | .error (.badFunctionCallOutput e) =>
      .error ("Allowance call failed (is this a valid ERC20?): " ++ e)
  | .error (.contractLogicError e) =>
      .error ("Allowance call failed (is this a valid ERC20?): " ++ e)
  | .error (.other e) => .error ("Failed to fetch allowance: " ++ e)

/-- The JSON report dictionary (src/appallowzk.py lines 144-160), minus the
wall-clock `elapsed_seconds` field, which is not modelled. -/
structure RunReport where
  rpc : String
  chain_id : Option ℕ
  token : String
  token_name : String
  token_symbol : String
  decimals : ℕ
  owner : String
  spender : String
  block : String
  allowance_raw : ℕ
  allowance_human : String
  expected_human : Option String
  expected_raw : Option ℤ
  matchField : Option Bool
deriving DecidableEq

/-- Everything observable about one invocation: stdout lines in order, network
operations attempted in order, and the process exit code. -/
structure RunResult where
  output : List String
  netOps : List String
  exitCode : ℕ
deriving DecidableEq

/-! ## The reporter and the main pipeline -/

/-- JSON string literal (no escaping; no claim feeds exotic strings through). -/
def jsonStr (s : String) : String := "\"" ++ s ++ "\""

/-- Render an optional string JSON value. -/
def jsonOptStr : Option String → String
  | some s => jsonStr s
  | none => "null"

/-- Render an optional natural JSON value. -/
def jsonOptNat : Option ℕ → String
  | some n => toString n
  | none => "null"

/-- Render an optional integer JSON value. -/
def jsonOptInt : Option ℤ → String
  | some n => toString n
  | none => "null"

/-- Render an optional boolean JSON value. -/
def jsonOptBool : Option Bool → String
  | some true => "true"
  | some false => "false"
  | none => "null"

/-- The body of the JSON document, after the opening brace. -/
def jsonBody (r : RunReport) : String :=
  jsonStr "rpc" ++ ": " ++ jsonStr r.rpc
  ++ ", " ++ jsonStr "chain_id" ++ ": " ++ jsonOptNat r.chain_id
  ++ ", " ++ jsonStr "token" ++ ": " ++ jsonStr r.token
  ++ ", " ++ jsonStr "token_name" ++ ": " ++ jsonStr r.token_name
  ++ ", " ++ jsonStr "token_symbol" ++ ": " ++ jsonStr r.token_symbol
  ++ ", " ++ jsonStr "decimals" ++ ": " ++ toString r.decimals
  ++ ", " ++ jsonStr "owner" ++ ": " ++ jsonStr r.owner
  ++ ", " ++ jsonStr "spender" ++ ": " ++ jsonStr r.spender
  ++ ", " ++ jsonStr "block" ++ ": " ++ jsonStr r.block
  ++ ", " ++ jsonStr "allowance_raw" ++ ": " ++ toString r.allowance_raw
  ++ ", " ++ jsonStr "allowance_human" ++ ": " ++ jsonStr r.allowance_human
  ++ ", " ++ jsonStr "expected_human" ++ ": " ++ jsonOptStr r.expected_human
  ++ ", " ++ jsonStr "expected_raw" ++ ": " ++ jsonOptInt r.expected_raw
  ++ ", " ++ jsonStr "match" ++ ": " ++ jsonOptBool r.matchField
  ++ " \x7d"

/-- Model of `json.dumps(out, ...)` on the report dictionary
(src/appallowzk.py line 165): one string holding every field in insertion
order (whitespace/indentation not reproduced; `elapsed_seconds` omitted). -/
def jsonDump (r : RunReport) : String :=
  "\x7b " ++ jsonBody r

/-- The zero-allowance warning (src/appallowzk.py line 124). -/
def zeroAllowWarn : String :=
  "⚠️ Warning: Allowance is 0 — the spender cannot transfer tokens."

/-- Verdict line for a successful comparison (src/appallowzk.py line 136). -/
def matchVerdictLine : String := "✅ MATCH"

/-- Verdict line for a failed comparison (src/appallowzk.py line 136). -/
def mismatchVerdictLine : String := "❌ MISMATCH"

/-- Placeholder for the wall-clock line (src/appallowzk.py line 141). -/
def elapsedLine : String := "⏱️ Completed in <elapsed>s"

/-- `args.rpc.startswith(("http://", "https://"))` (src/appallowzk.py
line 80). -/
def rpcSchemeOk (rpc : String) : Bool :=
  "http://".data.isPrefixOf rpc.data || "https://".data.isPrefixOf rpc.data

/-- Sequential validation of the three addresses (src/appallowzk.py
lines 85-91): the first `ValueError` aborts with its message. -/
def validateAddrs (keccak : List Char → List ℕ) (args : Args) :
    Except String (String × String × String) := do
  let token ← to_checksum_or_die keccak args.token
  let owner ← to_checksum_or_die keccak args.owner
  let spender ← to_checksum_or_die keccak args.spender
  .ok (token, owner, spender)

/-- Report header (src/appallowzk.py lines 101-110): banner, chain id when
obtainable, RPC, block, token identity, owner, spender. -/
def headerLines (args : Args) (chain : Chain) (meta : TokenMeta)
    (token owner spender : String) : List String :=
  ["🔧 zk-allowance-soundness"]
  ++ (match chain.chainId with
      | some cid => ["🧭 Chain ID: " ++ toString cid]
      | none => [])
  ++ ["🔗 RPC: " ++ args.rpc,
      "🧱 Block: " ++ args.block,
      "🪙 Token: " ++ meta.name ++ " (" ++ meta.symbol ++ ") @ " ++ token,
      "👤 Owner:  " ++ owner,
      "🎯 Spender:" ++ spender]

/-- The `--expected` comparison block (src/appallowzk.py lines 128-138):
returns the comparison outcome, the converted raw value, and the lines it
prints.  On parse failure the source prints a warning that embeds the
exception text; the embedding keeps the fixed part of that message. -/
def expectedSection (s : String) (symbol : String) (decimals : ℕ) (raw : ℕ) :
    Option Bool × Option ℤ × List String :=
  match parseExpectedRaw s decimals with
  | some er =>
      (some (decide (er = (raw : ℤ))), some er,
        ["🎯 Expected: " ++ s ++ " " ++ symbol ++ " (raw " ++ toString er ++ ")",
         if er = (raw : ℤ) then matchVerdictLine else mismatchVerdictLine])
  | none => (none, none, ["⚠️ Could not parse --expected " ++ s])

/-- Outcome triple (`matched`, `expected_raw`, printed lines) of the optional
expected-value block, over the optional `--expected` argument
(src/appallowzk.py lines 126-138). -/
def expResOf (expected : Option String) (symbol : String) (decimals raw : ℕ) :
    Option Bool × Option ℤ × List String :=
  match expected with
  | none => (none, none, [])
  | some s => expectedSection s symbol decimals raw

/-- The two allowance report lines plus the zero-allowance warning
(src/appallowzk.py lines 120-124). -/
def allowanceLines (symbol : String) (decimals raw : ℕ) : List String :=
  ["📦 Allowance (raw): " ++ toString raw,
   "💳 Allowance (" ++ symbol ++ "): " ++ human_amount raw decimals]
  ++ (if raw = 0 then [zeroAllowWarn] else [])

/-- The JSON report of a run that reached the allowance report
(src/appallowzk.py lines 144-164). -/
def successReport (args : Args) (chain : Chain)
    (token owner spender : String) (raw : ℕ) : RunReport :=
  let meta := fetch_erc20_meta chain
  ⟨args.rpc, chain.chainId, token, meta.name, meta.symbol, meta.decimals,
   owner, spender, args.block, raw, human_amount raw meta.decimals,
   args.expected,
   (expResOf args.expected meta.symbol meta.decimals raw).2.1,
   (expResOf args.expected meta.symbol meta.decimals raw).1⟩

/-- All lines printed by a run that reached the allowance report, in order
(src/appallowzk.py lines 101-165). -/
def successOutput (args : Args) (chain : Chain)
    (token owner spender : String) (raw : ℕ) : List String :=
  let meta := fetch_erc20_meta chain
  headerLines args chain meta token owner spender
  ++ allowanceLines meta.symbol meta.decimals raw
  ++ (expResOf args.expected meta.symbol meta.decimals raw).2.2
  ++ [elapsedLine]
  ++ (if args.json then
        [jsonDump (successReport args chain token owner spender raw)]
      else [])

/-- `main` from src/appallowzk.py lines 75-170, as a pure function of the
arguments and the chain oracle.  Stages in source order: RPC scheme check,
address validation, connection probe, metadata fetch, header report,
allowance fetch, allowance report and zero warning, optional expected-value
comparison, elapsed line, optional JSON dump, exit code. -/
def runMain (keccak : List Char → List ℕ) (args : Args) (chain : Chain) :
    RunResult :=
  if rpcSchemeOk args.rpc then
    match validateAddrs keccak args with
    | .error msg => ⟨["❌ " ++ msg], [], 1⟩
    | .ok (token, owner, spender) =>
      if chain.connected then
        let meta := fetch_erc20_meta chain
        let hdr := headerLines args chain meta token owner spender
        let opsPre := ["connect", "name", "symbol", "decimals", "chain_id"]
        match get_allowance chain with
        | .error e => ⟨hdr ++ ["❌ " ++ e], opsPre ++ ["allowance"], 2⟩
        | .ok raw =>
          ⟨successOutput args chain token owner spender raw,
           opsPre ++ ["allowance"] ++ (if args.json then ["chain_id"] else []),
           if (expResOf args.expected meta.symbol meta.decimals raw).1 = some false
           then 2 else 0⟩
      else
        ⟨["❌ RPC connection failed. Check RPC_URL or --rpc."], ["connect"], 1⟩
  else
    ⟨["❌ Invalid RPC URL format. Must start with http(s)."], [], 1⟩

/-! ## Helper lemmas -/

/-- The character at index `n` of a string, if any. -/
def charAt (s : String) (n : ℕ) : Option Char := (s.data.drop n).head?

lemma ne_of_charAt {a b : String} (n : ℕ) (h : charAt a n ≠ charAt b n) :
    a ≠ b :=
  fun he => h (congrArg (fun s => charAt s n) he)

lemma hexChar_facts (c : Char) (h : hexDigit c = true) :
    hexDigit (toLowerHex c) = true ∧
    toLowerHex (toLowerHex c) = toLowerHex c ∧
    toLowerHex (toUpperHex (toLowerHex c)) = toLowerHex c ∧
    hexDigit (toUpperHex (toLowerHex c)) = true := by
  have h2 : c ∈ hexDigitChars := of_decide_eq_true h
  simp only [hexDigitChars] at h2
  fin_cases h2 <;> decide

lemma caseByNibbles_length (ns : List ℕ) (l : List Char) :
    (caseByNibbles ns l).length = l.length := by
  induction l generalizing ns with
  | nil => cases ns <;> rfl
  | cons c cs ih =>
    cases ns with
    | nil => simpa [caseByNibbles] using ih []
    | cons n ns' => simpa [caseByNibbles] using ih ns'

lemma caseByNibbles_map_toLowerHex (ns : List ℕ) (l : List Char)
    (h : ∀ c ∈ l, toLowerHex (toUpperHex c) = c ∧ toLowerHex c = c) :
    (caseByNibbles ns l).map toLowerHex = l := by
  induction l generalizing ns with
  | nil => cases ns <;> rfl
  | cons c cs ih =>
    have hc := h c (List.mem_cons_self c cs)
    have hrest : ∀ x ∈ cs, toLowerHex (toUpperHex x) = x ∧ toLowerHex x = x :=
      fun x hx => h x (List.mem_cons_of_mem c hx)
    cases ns with
    | nil => simp [caseByNibbles, hc.2, ih [] hrest]
    | cons n ns' =>
      by_cases hn : 8 ≤ n
      · simp [caseByNibbles, hn, hc.1, ih ns' hrest]
      · simp [caseByNibbles, hn, hc.2, ih ns' hrest]

lemma caseByNibbles_all_hex (ns : List ℕ) (l : List Char)
    (h : ∀ c ∈ l, hexDigit c = true ∧ hexDigit (toUpperHex c) = true) :
    ∀ x ∈ caseByNibbles ns l, hexDigit x = true := by
  induction l generalizing ns with
  | nil => cases ns <;> simp [caseByNibbles]
  | cons c cs ih =>
    have hc := h c (List.mem_cons_self c cs)
    have hrest : ∀ x ∈ cs, hexDigit x = true ∧ hexDigit (toUpperHex x) = true :=
      fun x hx => h x (List.mem_cons_of_mem c hx)
    cases ns with
    | nil =>
      intro x hx
      rcases hx with _ | hx
      · exact hc.1
      · exact ih [] hrest x (by assumption)
    | cons n ns' =>
      intro x hx
      rcases hx with _ | hx
      · by_cases hn : 8 ≤ n
        · simpa [hn] using hc.2
        · simpa [hn] using hc.1
      · exact ih ns' hrest x (by assumption)

/-- C7: `normalize_address` (`to_checksum_or_die`) is idempotent on every
syntactically valid address: re-normalizing its own output reproduces the
output, for any hash function driving the case pattern. -/
theorem C7_normalize_address_idempotent (keccak : List Char → List ℕ)
    (a b : String) (h : to_checksum_or_die keccak a = .ok b) :
    to_checksum_or_die keccak b = .ok b := by
  unfold to_checksum_or_die at h
  by_cases ha : isAddress a = true
  case neg => simp [ha] at h
  rw [if_pos ha] at h
  have hb : b = to_checksum_address keccak a := by
    cases h
    rfl
  have haddr := ha
  unfold isAddress at haddr
  simp only [Bool.and_eq_true, decide_eq_true_eq, List.all_eq_true] at haddr
  obtain ⟨hlen, hall⟩ := haddr
  -- the lowercased digit list and its element-wise facts
  set d : List Char := strip0x a.data with hd
  set low : List Char := d.map toLowerHex with hlow
  have hlowmem : ∀ x ∈ low, ∃ c, c ∈ d ∧ x = toLowerHex c := by
    intro x hx
    rcases List.mem_map.mp hx with ⟨c, hc, rfl⟩
    exact ⟨c, hc, rfl⟩
  have hlowfix : ∀ x ∈ low, toLowerHex (toUpperHex x) = x ∧ toLowerHex x = x := by
    intro x hx
    rcases hlowmem x hx with ⟨c, hc, rfl⟩
    have hf := hexChar_facts c (hall c hc)
    exact ⟨hf.2.2.1, hf.2.1⟩
  have hlowhex : ∀ x ∈ low, hexDigit x = true ∧ hexDigit (toUpperHex x) = true := by
    intro x hx
    rcases hlowmem x hx with ⟨c, hc, rfl⟩
    have hf := hexChar_facts c (hall c hc)
    exact ⟨hf.1, hf.2.2.2⟩
  have hbdata : b.data = '0' :: 'x' :: caseByNibbles (keccak low) low := by
    rw [hb]
    rfl
  have hstripb : strip0x b.data = caseByNibbles (keccak low) low := by
    rw [hbdata]
    rfl
  -- re-lowercasing the checksummed digits recovers `low`
  have hlower : (strip0x b.data).map toLowerHex = low := by
    rw [hstripb]
    exact caseByNibbles_map_toLowerHex _ _ hlowfix
  -- the checksummed output is again a valid address
  have hvalidb : isAddress b = true := by
    unfold isAddress
    simp only [Bool.and_eq_true, decide_eq_true_eq, List.all_eq_true]
    constructor
    · rw [hstripb, caseByNibbles_length]
      rw [hlow, List.length_map]
      exact hlen
    · intro x hx
      rw [hstripb] at hx
      exact caseByNibbles_all_hex _ _ hlowhex x hx
  -- and checksumming it again is the identity
  have hagain : to_checksum_address keccak b = b := by
    unfold to_checksum_address
    rw [hlower]
    apply String.ext
    rw [hbdata]
  unfold to_checksum_or_die
  rw [if_pos hvalidb, hagain]

/-- Constant hash whose nibbles are all ≥ 8: uppercases every letter. -/
def keccakConst9 : List Char → List ℕ := fun _ => List.replicate 64 9

/-- Witness for C7 at a concrete address and hash function. -/
theorem C7_witness :
    to_checksum_or_die keccakConst9 "0xabcdefabcdefabcdefabcdefabcdefabcdefabcd"
      = .ok "0xABCDEFABCDEFABCDEFABCDEFABCDEFABCDEFABCD" ∧
    to_checksum_or_die keccakConst9 "0xABCDEFABCDEFABCDEFABCDEFABCDEFABCDEFABCD"
      = .ok "0xABCDEFABCDEFABCDEFABCDEFABCDEFABCDEFABCD" :=
  ⟨rfl, C7_normalize_address_idempotent keccakConst9
    "0xabcdefabcdefabcdefabcdefabcdefabcdefabcd"
    "0xABCDEFABCDEFABCDEFABCDEFABCDEFABCDEFABCD" rfl⟩

/-! ## Shared concrete fixtures for witnesses and counterexamples -/

/-- Trivial hash: no nibbles, so checksumming lowercases every digit. -/
def keccak0 : List Char → List ℕ := fun _ => []

/-- A syntactically valid address that is its own checksum under `keccak0`. -/
def addrA : String := "0x1111111111111111111111111111111111111111"

/-- Baseline arguments: good URL, valid addresses, no expected value. -/
def argsBase : Args :=
  ⟨"http://localhost:8545", addrA, addrA, addrA, "latest", none, 30, false⟩

/-- A fully healthy chain oracle with allowance 5. -/
def chainOk : Chain := ⟨true, some 1, some "Token", some "TOK", some 18, .ok 5⟩

/-! ## C1: exit codes -/

/-- C1: the exit code is 0 on a successful run when no expected value was
given or the expected value converts exactly to the raw allowance; 1 on bad
RPC URL scheme, invalid address, or failed connection; 2 on allowance fetch
failure or expected-value mismatch. -/
theorem C1_exit_codes (keccak : List Char → List ℕ) (args : Args) (chain : Chain) :
    (∀ t o s raw,
      rpcSchemeOk args.rpc = true →
      validateAddrs keccak args = .ok (t, o, s) →
      chain.connected = true →
      get_allowance chain = .ok raw →
      (args.expected = none ∨
        ∃ es, args.expected = some es ∧
          parseExpectedRaw es (fetch_erc20_meta chain).decimals = some (raw : ℤ)) →
      (runMain keccak args chain).exitCode = 0) ∧
    (rpcSchemeOk args.rpc = false → (runMain keccak args chain).exitCode = 1) ∧
    (∀ m, rpcSchemeOk args.rpc = true →
      validateAddrs keccak args = .error m →
      (runMain keccak args chain).exitCode = 1) ∧
    (∀ t o s, rpcSchemeOk args.rpc = true →
      validateAddrs keccak args = .ok (t, o, s) →
      chain.connected = false →
      (runMain keccak args chain).exitCode = 1) ∧
    (∀ t o s e, rpcSchemeOk args.rpc = true →
      validateAddrs keccak args = .ok (t, o, s) →
      chain.connected = true →
      get_allowance chain = .error e →
      (runMain keccak args chain).exitCode = 2) ∧
    (∀ t o s raw es er, rpcSchemeOk args.rpc = true →
      validateAddrs keccak args = .ok (t, o, s) →
      chain.connected = true →
      get_allowance chain = .ok raw →
      args.expected = some es →
      parseExpectedRaw es (fetch_erc20_meta chain).decimals = some er →
      er ≠ (raw : ℤ) →
      (runMain keccak args chain).exitCode = 2) := by
  refine ⟨?_, (?_), ?_, ?_, ?_, ?_⟩
  · intro t o s raw hurl hv hc ha hexp
    rcases hexp with hnone | ⟨es, hsome, hparse⟩
    · simp [runMain, hurl, hv, hc, ha, expResOf, hnone]
    · simp [runMain, hurl, hv, hc, ha, expResOf, hsome, expectedSection, hparse]
  · intro h
    simp [runMain, h]
  · intro m hurl hv
    simp [runMain, hurl, hv]
  · intro t o s hurl hv hc
    simp [runMain, hurl, hv, hc]
  · intro t o s e hurl hv hc ha
    simp [runMain, hurl, hv, hc, ha]
  · intro t o s raw es er hurl hv hc ha hsome hparse hne
    simp [runMain, hurl, hv, hc, ha, expResOf, hsome, expectedSection, hparse, hne]

/-- Witness for C1 at a concrete successful run with no expected value. -/
theorem C1_witness : (runMain keccak0 argsBase chainOk).exitCode = 0 :=
  (C1_exit_codes keccak0 argsBase chainOk).1 addrA addrA addrA 5
    rfl rfl rfl rfl (Or.inl rfl)

/-! ## C4: URL validation precedes any network call -/

/-- C4: with an RPC URL not starting with `http://` or `https://`, the run
exits with code 1, attempts no network operation, and prints only the
invalid-configuration error line. -/
theorem C4_url_check_precedes_network (keccak : List Char → List ℕ)
    (args : Args) (chain : Chain) (h : rpcSchemeOk args.rpc = false) :
    (runMain keccak args chain).exitCode = 1 ∧
    (runMain keccak args chain).netOps = [] ∧
    (runMain keccak args chain).output =
      ["❌ Invalid RPC URL format. Must start with http(s)."] := by
  refine ⟨?_, (?_), ?_⟩ <;> simp [runMain, h]

/-- Arguments with the example of a bad scheme given by the spec. -/
def argsFtp : Args := { argsBase with rpc := "ftp://example.com" }

/-- Witness for C4 at `--rpc ftp://example.com`. -/
theorem C4_witness :
    (runMain keccak0 argsFtp chainOk).exitCode = 1 ∧
    (runMain keccak0 argsFtp chainOk).netOps = [] ∧
    (runMain keccak0 argsFtp chainOk).output =
      ["❌ Invalid RPC URL format. Must start with http(s)."] :=
  C4_url_check_precedes_network keccak0 argsFtp chainOk rfl

/-! ## C5: per-field metadata failure isolation -/

/-- C5: each metadata field independently takes its queried value on success
and its documented default on failure; each field depends only on the
outcome of its own call (failure of one cannot abort the others); and metadata
failures never make the run fatal. -/
theorem C5_metadata_isolated :
    (∀ chain : Chain, chain.nameRes = none →
      (fetch_erc20_meta chain).name = "Unknown") ∧
    (∀ (chain : Chain) (v : String), chain.nameRes = some v →
      (fetch_erc20_meta chain).name = v) ∧
    (∀ chain : Chain, chain.symbolRes = none →
      (fetch_erc20_meta chain).symbol = "???") ∧
    (∀ (chain : Chain) (v : String), chain.symbolRes = some v →
      (fetch_erc20_meta chain).symbol = v) ∧
    (∀ chain : Chain, chain.decimalsRes = none →
      (fetch_erc20_meta chain).decimals = 18) ∧
    (∀ (chain : Chain) (v : ℕ), chain.decimalsRes = some v →
      (fetch_erc20_meta chain).decimals = v) ∧
    (∀ c c' : Chain, c.nameRes = c'.nameRes →
      (fetch_erc20_meta c).name = (fetch_erc20_meta c').name) ∧
    (∀ c c' : Chain, c.symbolRes = c'.symbolRes →
      (fetch_erc20_meta c).symbol = (fetch_erc20_meta c').symbol) ∧
    (∀ c c' : Chain, c.decimalsRes = c'.decimalsRes →
      (fetch_erc20_meta c).decimals = (fetch_erc20_meta c').decimals) ∧
    (∀ (keccak : List Char → List ℕ) (args : Args) (chain : Chain) t o s raw,
      rpcSchemeOk args.rpc = true →
      validateAddrs keccak args = .ok (t, o, s) →
      chain.connected = true →
      get_allowance chain = .ok raw →
      args.expected = none →
      (runMain keccak args chain).exitCode = 0) := by
  refine ⟨?_, (?_), ?_, ?_, ?_, ?_, ?_, ?_, ?_, ?_⟩
  · intro chain h
    simp [fetch_erc20_meta, h]
  · intro chain v h
    simp [fetch_erc20_meta, h]
  · intro chain h
    simp [fetch_erc20_meta, h]
  · intro chain v h
    simp [fetch_erc20_meta, h]
  · intro chain h
    simp [fetch_erc20_meta, h]
  · intro chain v h
    simp [fetch_erc20_meta, h]
  · intro c c' h
    simp [fetch_erc20_meta, h]
  · intro c c' h
    simp [fetch_erc20_meta, h]
  · intro c c' h
    simp [fetch_erc20_meta, h]
  · intro keccak args chain t o s raw hurl hv hc ha hnone
    simp [runMain, hurl, hv, hc, ha, expResOf, hnone]

/-- Chain oracle where all three metadata calls fail but allowance succeeds. -/
def chainMetaFail : Chain := ⟨true, some 1, none, none, none, .ok 7⟩

/-- Witness for C5: with every metadata call failing, all three defaults are
taken and the run still exits 0. -/
theorem C5_witness :
    (fetch_erc20_meta chainMetaFail).name = "Unknown" ∧
    (fetch_erc20_meta chainMetaFail).symbol = "???" ∧
    (fetch_erc20_meta chainMetaFail).decimals = 18 ∧
    (runMain keccak0 argsBase chainMetaFail).exitCode = 0 :=
  ⟨C5_metadata_isolated.1 chainMetaFail rfl,
   C5_metadata_isolated.2.2.1 chainMetaFail rfl,
   C5_metadata_isolated.2.2.2.2.1 chainMetaFail rfl,
   C5_metadata_isolated.2.2.2.2.2.2.2.2.2 keccak0 argsBase chainMetaFail
     addrA addrA addrA 7 rfl rfl rfl rfl rfl⟩

/-! ## Output-line discrimination

Each report line begins with a fixed literal, so lines from different parts
of the report can be told apart by their first few characters. -/

lemma string_ne_of_charAt (n : ℕ) {a b : String} {c c' : Char}
    (ha : charAt a n = some c) (hb : charAt b n = some c') (hne : c ≠ c') :
    a ≠ b := by
  intro he
  subst he
  rw [ha] at hb
  exact hne (Option.some.inj hb)

lemma charAt_mem_of_eq (x : Option Char) (c : Char) (l : List (Option Char))
    (h : x = some c) (hc : some c ∈ l) : x ∈ l := h ▸ hc

/-- The first characters that header lines can start with. -/
def headerHeads : List (Option Char) :=
  [some '🔧', some '🧭', some '🔗', some '🧱', some '🪙', some '👤', some '🎯']

/-- Every header line starts with one of the seven header emojis. -/
lemma headerLines_head (args : Args) (chain : Chain) (meta : TokenMeta)
    (t o s : String) (x : String)
    (hx : x ∈ headerLines args chain meta t o s) :
    charAt x 0 ∈ headerHeads := by
  unfold headerLines at hx
  cases hci : chain.chainId with
  | none =>
    rw [hci] at hx
    simp only [List.nil_append, List.cons_append, List.mem_cons,
      List.not_mem_nil, or_false, List.mem_singleton, List.mem_append] at hx
    rcases hx with rfl | rfl | rfl | rfl | rfl | rfl
    · exact charAt_mem_of_eq _ '🔧' _ rfl (by decide)
    · exact charAt_mem_of_eq _ '🔗' _ rfl (by decide)
    · exact charAt_mem_of_eq _ '🧱' _ rfl (by decide)
    · exact charAt_mem_of_eq _ '🪙' _ rfl (by decide)
    · exact charAt_mem_of_eq _ '👤' _ rfl (by decide)
    · exact charAt_mem_of_eq _ '🎯' _ rfl (by decide)
  | some cid =>
    rw [hci] at hx
    simp only [List.nil_append, List.cons_append, List.mem_cons,
      List.not_mem_nil, or_false, List.mem_singleton, List.mem_append] at hx
    rcases hx with rfl | rfl | rfl | rfl | rfl | rfl | rfl
    · exact charAt_mem_of_eq _ '🔧' _ rfl (by decide)
    · exact charAt_mem_of_eq _ '🧭' _ rfl (by decide)
    · exact charAt_mem_of_eq _ '🔗' _ rfl (by decide)
    · exact charAt_mem_of_eq _ '🧱' _ rfl (by decide)
    · exact charAt_mem_of_eq _ '🪙' _ rfl (by decide)
    · exact charAt_mem_of_eq _ '👤' _ rfl (by decide)
    · exact charAt_mem_of_eq _ '🎯' _ rfl (by decide)

/-- Shape of the lines printed by the expected-value comparison block. -/
lemma expectedSection_lines (es symbol : String) (d raw : ℕ) (x : String)
    (hx : x ∈ (expectedSection es symbol d raw).2.2) :
    charAt x 0 = some '🎯' ∨ x = matchVerdictLine ∨ x = mismatchVerdictLine ∨
    (charAt x 0 = some '⚠' ∧ charAt x 3 = some 'C') := by
  unfold expectedSection at hx
  rcases hp : parseExpectedRaw es d with _ | er
  · rw [hp] at hx
    simp only [List.mem_singleton] at hx
    subst hx
    exact Or.inr (Or.inr (Or.inr ⟨rfl, rfl⟩))
  · rw [hp] at hx
    simp only [List.mem_cons, List.mem_singleton, List.not_mem_nil, or_false] at hx
    rcases hx with rfl | rfl
    · exact Or.inl rfl
    · by_cases he : er = (raw : ℤ)
      · exact Or.inr (Or.inl (if_pos he))
      · exact Or.inr (Or.inr (Or.inl (if_neg he)))

/-- On a run that reaches the allowance report, the printed lines are
exactly `successOutput`. -/
lemma runMain_output_success
    (keccak : List Char → List ℕ) (args : Args) (chain : Chain)
    (t o s : String) (raw : ℕ)
    (hurl : rpcSchemeOk args.rpc = true)
    (hv : validateAddrs keccak args = .ok (t, o, s))
    (hc : chain.connected = true)
    (ha : get_allowance chain = .ok raw) :
    (runMain keccak args chain).output = successOutput args chain t o s raw := by
  simp [runMain, hurl, hv, hc, ha]

/-- Case analysis of membership in `successOutput`. -/
lemma successOutput_cases (args : Args) (chain : Chain)
    (t o s : String) (raw : ℕ) (x : String)
    (hx : x ∈ successOutput args chain t o s raw) :
    x ∈ headerLines args chain (fetch_erc20_meta chain) t o s ∨
    x ∈ allowanceLines (fetch_erc20_meta chain).symbol
        (fetch_erc20_meta chain).decimals raw ∨
    (∃ es, args.expected = some es ∧
      x ∈ (expectedSection es (fetch_erc20_meta chain).symbol
            (fetch_erc20_meta chain).decimals raw).2.2) ∨
    x = elapsedLine ∨
    (∃ r : RunReport, x = jsonDump r) := by
  unfold successOutput at hx
  simp only [List.mem_append, List.mem_singleton] at hx
  rcases hx with ((((h | h) | h) | h) | h)
  · exact Or.inl h
  · exact Or.inr (Or.inl h)
  · rcases hexp : args.expected with _ | es
    · rw [hexp] at h
      simp [expResOf] at h
    · rw [hexp] at h
      simp only [expResOf] at h
      exact Or.inr (Or.inr (Or.inl ⟨es, rfl, h⟩))
  · exact Or.inr (Or.inr (Or.inr (Or.inl h)))
  · by_cases hjson : args.json
    · rw [if_pos hjson] at h
      simp only [List.mem_singleton] at h
      exact Or.inr (Or.inr (Or.inr (Or.inr ⟨_, h⟩)))
    · rw [if_neg hjson] at h
      simp at h

/-- Case analysis of membership in `allowanceLines`. -/
lemma allowanceLines_cases (symbol : String) (dec raw : ℕ) (x : String)
    (hx : x ∈ allowanceLines symbol dec raw) :
    x = "📦 Allowance (raw): " ++ toString raw ∨
    x = "💳 Allowance (" ++ symbol ++ "): " ++ human_amount raw dec ∨
    (x = zeroAllowWarn ∧ raw = 0) := by
  unfold allowanceLines at hx
  by_cases hraw : raw = 0
  · subst hraw
    simp at hx
    tauto
  · rw [if_neg hraw] at hx
    simp only [List.append_nil, List.mem_cons, List.mem_singleton,
      List.not_mem_nil, or_false] at hx
    tauto

/-- The JSON document always starts with the opening brace. -/
lemma jsonDump_charAt0 (r : RunReport) : charAt (jsonDump r) 0 = some '\x7b' := rfl

/-! ## C8: zero-allowance warning -/

/-- C8: on a run that reaches the allowance report, the zero-allowance
warning line is printed if and only if the fetched raw allowance is zero. -/
theorem C8_zero_allowance_warning
    (keccak : List Char → List ℕ) (args : Args) (chain : Chain)
    (t o s : String) (raw : ℕ)
    (hurl : rpcSchemeOk args.rpc = true)
    (hv : validateAddrs keccak args = .ok (t, o, s))
    (hc : chain.connected = true)
    (ha : get_allowance chain = .ok raw) :
    (zeroAllowWarn ∈ (runMain keccak args chain).output ↔ raw = 0) := by
  rw [runMain_output_success keccak args chain t o s raw hurl hv hc ha]
  constructor
  · intro hmem
    rcases successOutput_cases args chain t o s raw zeroAllowWarn hmem with
      h | h | ⟨es, hes, h⟩ | h | ⟨r, h⟩
    · exact absurd (headerLines_head _ _ _ _ _ _ _ h) (by decide)
    · rcases allowanceLines_cases _ _ _ _ h with h2 | h2 | h2
      · exact absurd h2 (string_ne_of_charAt 0 rfl rfl (by decide))
      · exact absurd h2 (string_ne_of_charAt 0 rfl rfl (by decide))
      · exact h2.2
    · rcases expectedSection_lines _ _ _ _ _ h with h2 | h2 | h2 | h2
      · exact absurd h2 (by decide)
      · exact absurd h2 (by decide)
      · exact absurd h2 (by decide)
      · exact absurd h2.2 (by decide)
    · exact absurd h (by decide)
    · exact absurd h (string_ne_of_charAt 0 rfl (jsonDump_charAt0 r) (by decide))
  · intro hraw
    subst hraw
    unfold successOutput
    refine List.mem_append_left _ (List.mem_append_left _
      (List.mem_append_left _ (List.mem_append_right _ ?_)))
    unfold allowanceLines
    simp

/-- Chain oracle reporting a zero allowance. -/
def chainZero : Chain := ⟨true, some 1, some "Token", some "TOK", some 18, .ok 0⟩

/-- Witness for C8: the warning is printed at raw allowance 0 and absent at
raw allowance 5. -/
theorem C8_witness :
    zeroAllowWarn ∈ (runMain keccak0 argsBase chainZero).output ∧
    zeroAllowWarn ∉ (runMain keccak0 argsBase chainOk).output :=
  ⟨(C8_zero_allowance_warning keccak0 argsBase chainZero addrA addrA addrA 0
      rfl rfl rfl rfl).mpr rfl,
   fun hmem =>
     absurd ((C8_zero_allowance_warning keccak0 argsBase chainOk addrA addrA
       addrA 5 rfl rfl rfl rfl).mp hmem) (by decide)⟩

/-! ## C6: `--expected` parse failure degrades gracefully -/

/-- C6: when the `--expected` string fails to parse, the run is not aborted:
the comparison outcome is `none`, exactly as when no expected value is given,
no MATCH/MISMATCH verdict is printed, the allowance report lines are still
printed, and the exit code is 0. -/
theorem C6_parse_failure_graceful
    (keccak : List Char → List ℕ) (args : Args) (chain : Chain)
    (t o s : String) (raw : ℕ) (es : String)
    (hurl : rpcSchemeOk args.rpc = true)
    (hv : validateAddrs keccak args = .ok (t, o, s))
    (hc : chain.connected = true)
    (ha : get_allowance chain = .ok raw)
    (hexp : args.expected = some es)
    (hparse : parseExpectedRaw es (fetch_erc20_meta chain).decimals = none) :
    (runMain keccak args chain).exitCode = 0 ∧
    (expResOf args.expected (fetch_erc20_meta chain).symbol
        (fetch_erc20_meta chain).decimals raw).1 = none ∧
    ("📦 Allowance (raw): " ++ toString raw) ∈ (runMain keccak args chain).output ∧
    ("💳 Allowance (" ++ (fetch_erc20_meta chain).symbol ++ "): "
        ++ human_amount raw (fetch_erc20_meta chain).decimals)
      ∈ (runMain keccak args chain).output ∧
    matchVerdictLine ∉ (runMain keccak args chain).output ∧
    mismatchVerdictLine ∉ (runMain keccak args chain).output := by
  have houts := runMain_output_success keccak args chain t o s raw hurl hv hc ha
  refine ⟨?_, (?_), ?_, ?_, ?_, ?_⟩
  · simp [runMain, hurl, hv, hc, ha, expResOf, hexp, expectedSection, hparse]
  · simp [expResOf, hexp, expectedSection, hparse]
  · rw [houts]
    unfold successOutput
    refine List.mem_append_left _ (List.mem_append_left _
      (List.mem_append_left _ (List.mem_append_right _ ?_)))
    unfold allowanceLines
    simp
  · rw [houts]
    unfold successOutput
    refine List.mem_append_left _ (List.mem_append_left _
      (List.mem_append_left _ (List.mem_append_right _ ?_)))
    unfold allowanceLines
    simp
  · rw [houts]
    intro hmem
    rcases successOutput_cases args chain t o s raw matchVerdictLine hmem with
      h | h | ⟨es', hes', h⟩ | h | ⟨r, h⟩
    · exact absurd (headerLines_head _ _ _ _ _ _ _ h) (by decide)
    · rcases allowanceLines_cases _ _ _ _ h with h2 | h2 | h2
      · exact absurd h2 (string_ne_of_charAt 0 rfl rfl (by decide))
      · exact absurd h2 (string_ne_of_charAt 0 rfl rfl (by decide))
      · exact absurd h2.1 (by decide)
    · have hes2 := Option.some.inj (hexp.symm.trans hes')
      subst hes2
      rw [expectedSection, hparse] at h
      simp only [List.mem_singleton] at h
      exact absurd h (string_ne_of_charAt 0 rfl rfl (by decide))
    · exact absurd h (by decide)
    · exact absurd h (string_ne_of_charAt 0 rfl (jsonDump_charAt0 r) (by decide))
  · rw [houts]
    intro hmem
    rcases successOutput_cases args chain t o s raw mismatchVerdictLine hmem with
      h | h | ⟨es', hes', h⟩ | h | ⟨r, h⟩
    · exact absurd (headerLines_head _ _ _ _ _ _ _ h) (by decide)
    · rcases allowanceLines_cases _ _ _ _ h with h2 | h2 | h2
      · exact absurd h2 (string_ne_of_charAt 0 rfl rfl (by decide))
      · exact absurd h2 (string_ne_of_charAt 0 rfl rfl (by decide))
      · exact absurd h2.1 (by decide)
    · have hes2 := Option.some.inj (hexp.symm.trans hes')
      subst hes2
      rw [expectedSection, hparse] at h
      simp only [List.mem_singleton] at h
      exact absurd h (string_ne_of_charAt 0 rfl rfl (by decide))
    · exact absurd h (by decide)
    · exact absurd h (string_ne_of_charAt 0 rfl (jsonDump_charAt0 r) (by decide))

/-- Arguments with an unparseable `--expected` string. -/
def argsExpBad : Args := { argsBase with expected := some "abc" }

/-- Witness for C6 at `--expected abc`. -/
theorem C6_witness :
    (runMain keccak0 argsExpBad chainOk).exitCode = 0 ∧
    (expResOf argsExpBad.expected (fetch_erc20_meta chainOk).symbol
        (fetch_erc20_meta chainOk).decimals 5).1 = none ∧
    ("📦 Allowance (raw): " ++ toString 5) ∈ (runMain keccak0 argsExpBad chainOk).output ∧
    ("💳 Allowance (" ++ (fetch_erc20_meta chainOk).symbol ++ "): "
        ++ human_amount 5 (fetch_erc20_meta chainOk).decimals)
      ∈ (runMain keccak0 argsExpBad chainOk).output ∧
    matchVerdictLine ∉ (runMain keccak0 argsExpBad chainOk).output ∧
    mismatchVerdictLine ∉ (runMain keccak0 argsExpBad chainOk).output :=
  C6_parse_failure_graceful keccak0 argsExpBad chainOk addrA addrA addrA 5 "abc"
    rfl rfl rfl rfl rfl rfl

/-! ## C9: mismatch does not suppress JSON output -/

/-- C9: with `--json` set, when the expected value parses and mismatches the
raw allowance, the full JSON document — whose `match` field is `false` — is
still printed, and the process then exits with code 2. -/
theorem C9_json_emitted_on_mismatch
    (keccak : List Char → List ℕ) (args : Args) (chain : Chain)
    (t o s : String) (raw : ℕ) (es : String) (er : ℤ)
    (hurl : rpcSchemeOk args.rpc = true)
    (hv : validateAddrs keccak args = .ok (t, o, s))
    (hc : chain.connected = true)
    (ha : get_allowance chain = .ok raw)
    (hexp : args.expected = some es)
    (hparse : parseExpectedRaw es (fetch_erc20_meta chain).decimals = some er)
    (hne : er ≠ (raw : ℤ))
    (hjson : args.json = true) :
    jsonDump (successReport args chain t o s raw) ∈ (runMain keccak args chain).output ∧
    (successReport args chain t o s raw).matchField = some false ∧
    (runMain keccak args chain).exitCode = 2 := by
  refine ⟨?_, (?_), ?_⟩
  · rw [runMain_output_success keccak args chain t o s raw hurl hv hc ha]
    unfold successOutput
    refine List.mem_append_right _ ?_
    rw [if_pos hjson]
    simp
  · simp [successReport, expResOf, hexp, expectedSection, hparse, hne]
  · simp [runMain, hurl, hv, hc, ha, expResOf, hexp, expectedSection, hparse, hne]

/-- Arguments asking for JSON with an expected value of 7 tokens. -/
def argsJson7 : Args := { argsBase with expected := some "7", json := true }

/-- Witness for C9: expected 7 tokens against raw allowance 5 with 18
decimals mismatches, yet the JSON document (match: false) is printed. -/
theorem C9_witness :
    jsonDump (successReport argsJson7 chainOk addrA addrA addrA 5)
      ∈ (runMain keccak0 argsJson7 chainOk).output ∧
    (successReport argsJson7 chainOk addrA addrA addrA 5).matchField = some false ∧
    (runMain keccak0 argsJson7 chainOk).exitCode = 2 :=
  C9_json_emitted_on_mismatch keccak0 argsJson7 chainOk addrA addrA addrA 5
    "7" 7000000000000000000 rfl rfl rfl rfl rfl rfl (by decide) rfl

/-! ## C2: fatal failures -/

/-- C2 (amended): every fatal failure prints a single error line and exits
non-zero immediately.  On the three pre-connection failures (bad RPC URL,
invalid address, failed connection) that error line is the only output; on
an allowance-fetch failure the error line is printed and the run exits 2
with no allowance report, comparison, or JSON lines — but the header lines
already printed before the fetch remain, so the error line is not the only
output on that path. -/
theorem C2_fatal_failures (keccak : List Char → List ℕ) (args : Args)
    (chain : Chain) :
    (rpcSchemeOk args.rpc = false →
      runMain keccak args chain =
        ⟨["❌ Invalid RPC URL format. Must start with http(s)."], [], 1⟩) ∧
    (∀ m, rpcSchemeOk args.rpc = true →
      validateAddrs keccak args = .error m →
      runMain keccak args chain = ⟨["❌ " ++ m], [], 1⟩) ∧
    (∀ t o s, rpcSchemeOk args.rpc = true →
      validateAddrs keccak args = .ok (t, o, s) →
      chain.connected = false →
      runMain keccak args chain =
        ⟨["❌ RPC connection failed. Check RPC_URL or --rpc."], ["connect"], 1⟩) ∧
    (∀ t o s e, rpcSchemeOk args.rpc = true →
      validateAddrs keccak args = .ok (t, o, s) →
      chain.connected = true →
      get_allowance chain = .error e →
      runMain keccak args chain =
        ⟨headerLines args chain (fetch_erc20_meta chain) t o s ++ ["❌ " ++ e],
         ["connect", "name", "symbol", "decimals", "chain_id", "allowance"],
         2⟩) := by
  refine ⟨?_, (?_), ?_, ?_⟩
  · intro h
    simp [runMain, h]
  · intro m hurl hv
    simp [runMain, hurl, hv]
  · intro t o s hurl hv hc
    simp [runMain, hurl, hv, hc]
  · intro t o s e hurl hv hc ha
    simp [runMain, hurl, hv, hc, ha]

/-- Chain oracle whose allowance call fails with a transport error. -/
def chainAllowFail : Chain :=
  ⟨true, some 1, some "Token", some "TOK", some 18, .error (.other "boom")⟩

/-- Counterexample to C2 as stated: on the allowance-fetch fatal path the
process exits non-zero, but report lines other than the error line (the
banner and header lines printed before the fetch) are part of the output,
so the output is not a single error line. -/
theorem C2_counterexample :
    (runMain keccak0 argsBase chainAllowFail).exitCode = 2 ∧
    "🔗 RPC: http://localhost:8545" ∈ (runMain keccak0 argsBase chainAllowFail).output ∧
    (runMain keccak0 argsBase chainAllowFail).output ≠
      ["❌ Failed to fetch allowance: boom"] := by
  refine ⟨rfl, ?_, ?_⟩ <;> decide

/-- Witness for the amended C2 at a bad-scheme run and an
allowance-failure run. -/
theorem C2_witness :
    runMain keccak0 argsFtp chainOk =
      ⟨["❌ Invalid RPC URL format. Must start with http(s)."], [], 1⟩ ∧
    runMain keccak0 argsBase chainAllowFail =
      ⟨headerLines argsBase chainAllowFail (fetch_erc20_meta chainAllowFail)
          addrA addrA addrA ++ ["❌ Failed to fetch allowance: boom"],
       ["connect", "name", "symbol", "decimals", "chain_id", "allowance"], 2⟩ :=
  ⟨(C2_fatal_failures keccak0 argsFtp chainOk).1 rfl,
   (C2_fatal_failures keccak0 argsBase chainAllowFail).2.2.2 addrA addrA addrA
     "Failed to fetch allowance: boom" rfl rfl rfl rfl⟩

/-! ## C10: the expected-value parser and negative expected values -/

/-- C10 (amended): the expected-value parser accepts general floating-point
syntax after comma removal — scientific notation, surrounding whitespace and
signed values, not only plain decimal numerals — and a negative expected
value parses successfully; whenever the converted raw integer is negative,
the verdict is MISMATCH and the exit code is 2.  (A negative expected value
of small enough magnitude instead rounds to raw 0, which can MATCH a zero
allowance; see the counterexample.) -/
theorem C10_parser_and_negative
    :
    parseExpectedRaw "1e2" 0 = some 100 ∧
    parseExpectedRaw "  -3.5  " 1 = some (-35) ∧
    parseExpectedRaw "+4.25e-2" 4 = some 425 ∧
    parseExpectedRaw "1,000" 0 = some 1000 ∧
    pyFloatLit "-0.25" = some (-25, -2) ∧
    (∀ (keccak : List Char → List ℕ) (args : Args) (chain : Chain)
       (t o s : String) (raw : ℕ) (es : String) (er : ℤ),
      rpcSchemeOk args.rpc = true →
      validateAddrs keccak args = .ok (t, o, s) →
      chain.connected = true →
      get_allowance chain = .ok raw →
      args.expected = some es →
      parseExpectedRaw es (fetch_erc20_meta chain).decimals = some er →
      er < 0 →
      ((runMain keccak args chain).exitCode = 2 ∧
       mismatchVerdictLine ∈ (runMain keccak args chain).output)) := by
  refine ⟨by decide, by decide, by decide, by decide, by decide, ?_⟩
  intro keccak args chain t o s raw es er hurl hv hc ha hexp hparse hneg
  have hne : er ≠ (raw : ℤ) := (lt_of_lt_of_le hneg (Int.natCast_nonneg raw)).ne
  constructor
  · simp [runMain, hurl, hv, hc, ha, expResOf, hexp, expectedSection, hparse, hne]
  · rw [runMain_output_success keccak args chain t o s raw hurl hv hc ha]
    unfold successOutput
    refine List.mem_append_left _ (List.mem_append_left _
      (List.mem_append_right _ ?_))
    rw [hexp]
    simp only [expResOf]
    rw [expectedSection, hparse]
    simp [if_neg hne]

/-- Arguments with the negative expected value `-0.25`. -/
def argsNegQuarter : Args := { argsBase with expected := some "-0.25" }

/-- Chain oracle of a token with 0 decimals and zero allowance. -/
def chainDec0 : Chain := ⟨true, some 1, some "Token", some "TOK", some 0, .ok 0⟩

/-- Counterexample to C10 as stated: `--expected -0.25` parses to the
negative value -25·10⁻², but with `decimals = 0` it is converted to raw 0 —
not a negative integer — and against a zero allowance the verdict is MATCH
and the exit code is 0, not MISMATCH. -/
theorem C10_counterexample :
    pyFloatLit "-0.25" = some (-25, -2) ∧
    parseExpectedRaw "-0.25" 0 = some 0 ∧
    (runMain keccak0 argsNegQuarter chainDec0).exitCode = 0 ∧
    matchVerdictLine ∈ (runMain keccak0 argsNegQuarter chainDec0).output ∧
    mismatchVerdictLine ∉ (runMain keccak0 argsNegQuarter chainDec0).output := by
  refine ⟨rfl, rfl, rfl, ?_, ?_⟩ <;> decide

/-- Arguments with the negative expected value `-1`. -/
def argsNegOne : Args := { argsBase with expected := some "-1" }

/-- Witness for the amended C10: `--expected -1` on a 0-decimals token with
zero allowance converts to raw -1 < 0, mismatches, and exits 2. -/
theorem C10_witness :
    (runMain keccak0 argsNegOne chainDec0).exitCode = 2 ∧
    mismatchVerdictLine ∈ (runMain keccak0 argsNegOne chainDec0).output :=
  C10_parser_and_negative.2.2.2.2.2 keccak0 argsNegOne chainDec0
    addrA addrA addrA 0 "-1" (-1) rfl rfl rfl rfl rfl (by decide) (by decide)
